import Mathlib

/-!
Shallow embedding of the core of `rust-ofd2img` (files `src/st_types.rs`,
`src/ofd.rs`, `src/document.rs`) and proofs about it.

Modelling conventions:
* Rust `f64` values are modelled as exact rationals (`ℚ`).  The standard
  library's `f64::from_str` is modelled by `Rust.parseF64`, which covers the
  finite decimal-numeral fragment of its grammar (optional sign, digits,
  optional fraction, optional `e`/`E` exponent).  The non-finite literals
  (`inf`, `infinity`, `nan`) and rounding to binary floating point are
  outside the modelled fragment; no claim exercises them.
* Rust `str::split_whitespace` is modelled by `Rust.splitWhitespace`
  (ASCII whitespace, which is what the inputs in the claims use).
* `std::num::ParseFloatError` carries only a failure kind (`Empty` or
  `Invalid`); it is modelled faithfully by `Rust.ParseFloatError`.
* `std::collections::HashMap<String, String>` is modelled by an association
  list (`HashMapS`) whose `insert` replaces any existing binding, matching
  `HashMap::insert` / `collect` semantics up to (irrelevant) iteration order.
* Fallible Rust functions returning `Result` are modelled with `Except`;
  the `?` operator becomes an explicit `match` on the intermediate result
  (or, in the path parser, the `Except` monad's bind).
-/

deriving instance DecidableEq for Except

namespace Rust

/-- Model of `std::num::FloatErrorKind`: an empty string or an invalid
numeral. -/
inductive FloatErrorKind where
  | empty
  | invalid
deriving DecidableEq, Repr

/-- Model of `std::num::ParseFloatError`: it carries only the failure kind,
no further information (in particular, not the offending token). -/
structure ParseFloatError where
  kind : FloatErrorKind
deriving DecidableEq, Repr

/-- Consume an optional leading sign; `true` means negative. -/
def takeSign : List Char → Bool × List Char
  | '-' :: cs => (true, cs)
  | '+' :: cs => (false, cs)
  | cs => (false, cs)

/-- Consume a maximal run of leading decimal digits. -/
def takeDigits : List Char → List Char × List Char
  | [] => ([], [])
  | c :: cs =>
    if c.isDigit then
      let (ds, r) := takeDigits cs
      (c :: ds, r)
    else ([], c :: cs)

/-- Numeric value of a digit run. -/
def digitsToNat (ds : List Char) : Nat :=
  ds.foldl (fun a c => 10 * a + (c.toNat - 48)) 0

/-- The finite-decimal fragment of the `f64::from_str` grammar:
`Sign? Digits '.'? Digits? Exp?` or `Sign? '.' Digits Exp?`, where
`Exp ::= ('e'|'E') Sign? Digits`.  Returns `none` when the character list
is not a numeral of this shape. -/
def parseFinite (cs : List Char) : Option ℚ :=
  let (neg, cs1) := takeSign cs
  let (ip, cs2) := takeDigits cs1
  let (fp, cs3) :=
    match cs2 with
    | '.' :: cs' => takeDigits cs'
    | _ => ([], cs2)
  if ip = [] ∧ fp = [] then none
  else
    let n0 : ℤ := (digitsToNat ip * 10 ^ fp.length + digitsToNat fp : ℕ)
    let n1 : ℤ := if neg then -n0 else n0
    let d0 : ℕ := 10 ^ fp.length
    match cs3 with
    | [] => some (mkRat n1 d0)
    | c :: cs4 =>
      if c = 'e' ∨ c = 'E' then
        let (eneg, cs5) := takeSign cs4
        let (ed, cs6) := takeDigits cs5
        if ed = [] ∨ cs6 ≠ [] then none
        else if eneg then some (mkRat n1 (d0 * 10 ^ digitsToNat ed))
        else some (mkRat (n1 * 10 ^ digitsToNat ed) d0)
      else none

/-- Model of `f64::from_str` (finite fragment): parse a string as a 64-bit
float.  An empty string fails with kind `empty`, any other failure with
kind `invalid`, exactly as in the Rust standard library. -/
def parseF64 (s : String) : Except ParseFloatError ℚ :=
  match parseFinite s.data with
  | some q => .ok q
  | none => .error ⟨if s.data = [] then .empty else .invalid⟩

/-- Splitter for `str::split_whitespace`: accumulate the current token
(in reverse) while walking the character list. -/
def splitWsAux : List Char → List Char → List (List Char)
  | [], acc => if acc = [] then [] else [acc.reverse]
  | c :: cs, acc =>
    if c.isWhitespace then
      if acc = [] then splitWsAux cs [] else acc.reverse :: splitWsAux cs []
    else splitWsAux cs (c :: acc)

/-- Model of `str::split_whitespace`: the maximal non-whitespace runs of
the string, in order, with no empty tokens. -/
def splitWhitespace (s : String) : List String :=
  (splitWsAux s.data []).map String.mk

/-- Truncation of a rational toward zero (`f64` → integer cast semantics);
`Int.div` is T-division. -/
def ratTrunc (q : ℚ) : ℤ :=
  Int.tdiv q.num (q.den : ℤ)

/-- Model of the Rust cast `as i32` on an `f64` value: truncate toward zero
and saturate at the `i32` bounds. -/
def asI32 (q : ℚ) : ℤ :=
  max (-(2 ^ 31)) (min (2 ^ 31 - 1) (ratTrunc q))

end Rust

/-- Embedding of `ParseSTError` from `src/st_types.rs`. -/
inductive ParseSTError where
  | InvalidFormat
  | ParseFloatError (e : Rust.ParseFloatError)
deriving DecidableEq, Repr

/-- The idiom `tok.parse::<f64>().map_err(ParseSTError::ParseFloatError)`
used throughout `src/st_types.rs`. -/
def parseOperand (s : String) : Except ParseSTError ℚ :=
  match Rust.parseF64 s with
  | .ok v => .ok v
  | .error e => .error (ParseSTError.ParseFloatError e)

/-- Embedding of `STPos` from `src/st_types.rs`. -/
structure STPos where
  x : ℚ
  y : ℚ
deriving DecidableEq, Repr

/-- Embedding of `<STPos as FromStr>::from_str`: split on whitespace,
require exactly 2 tokens, parse each as a float. -/
def STPos.from_str (s : String) : Except ParseSTError STPos :=
  match Rust.splitWhitespace s with
  | [x_str, y_str] =>
    match parseOperand x_str with
    | .error e => .error e
    | .ok x =>
      match parseOperand y_str with
      | .error e => .error e
      | .ok y => .ok ⟨x, y⟩
  | _ => .error .InvalidFormat

/-- Embedding of `STBox` from `src/st_types.rs`. -/
structure STBox where
  x : ℚ
  y : ℚ
  w : ℚ
  h : ℚ
deriving DecidableEq, Repr

/-- Embedding of `<STBox as FromStr>::from_str`: split on whitespace,
require exactly 4 tokens, parse each as a float in the order x, y, w, h. -/
def STBox.from_str (s : String) : Except ParseSTError STBox :=
  match Rust.splitWhitespace s with
  | [x_str, y_str, w_str, h_str] =>
    match parseOperand x_str with
    | .error e => .error e
    | .ok x =>
      match parseOperand y_str with
      | .error e => .error e
      | .ok y =>
        match parseOperand w_str with
        | .error e => .error e
        | .ok w =>
          match parseOperand h_str with
          | .error e => .error e
          | .ok h => .ok ⟨x, y, w, h⟩
  | _ => .error .InvalidFormat

/-- Embedding of the `StartAt` struct (`src/st_types.rs`): opcode `S`,
operands x y. -/
structure StartAt where
  pos : STPos
deriving DecidableEq, Repr

/-- Embedding of the `MoveTo` struct: opcode `M`, operands x y. -/
structure MoveTo where
  pos : STPos
deriving DecidableEq, Repr

/-- Embedding of the `LineTo` struct: opcode `L`, operands x y. -/
structure LineTo where
  pos : STPos
deriving DecidableEq, Repr

/-- Embedding of the `QuadraticBezierCurve` struct: opcode `Q`,
operands x1 y1 x2 y2. -/
structure QuadraticBezierCurve where
  pos1 : STPos
  pos2 : STPos
deriving DecidableEq, Repr

/-- Embedding of the `CubicBezierCurve` struct: opcode `B`,
operands x1 y1 x2 y2 x3 y3. -/
structure CubicBezierCurve where
  pos1 : STPos
  pos2 : STPos
  pos3 : STPos
deriving DecidableEq, Repr

/-- Embedding of the `EllipseArc` struct: opcode `A`,
operands rx ry angle large sweep x y. -/
structure EllipseArc where
  rx : ℚ
  ry : ℚ
  angle : ℚ
  large : ℚ
  sweep : ℚ
  pos : STPos
deriving DecidableEq, Repr

/-- Embedding of the `ClosePath` struct: opcode `C`, no operands. -/
structure ClosePath where
deriving DecidableEq, Repr

/-- Embedding of the `PathElement` enum (`src/st_types.rs`). -/
inductive PathElement where
  | StartAt (v : StartAt)
  | MoveTo (v : MoveTo)
  | LineTo (v : LineTo)
  | QuadraticBezierCurve (v : QuadraticBezierCurve)
  | CubicBezierCurve (v : CubicBezierCurve)
  | EllipseArc (v : EllipseArc)
  | ClosePath (v : ClosePath)
deriving DecidableEq, Repr

/-- Embedding of `STPath` (`src/st_types.rs`). -/
structure STPath where
  elements : List PathElement
deriving DecidableEq, Repr

/-- The token-consuming loop of `<STPath as FromStr>::from_str`: one opcode
token, then exactly its fixed number of operand tokens (all pulled before
any is parsed, so stream exhaustion reports before a bad numeral does);
elements are accumulated in input order.  The source's `?` operator is the
`Except` monad's bind; an opcode whose operand tokens are exhausted falls
through to the final catch-all arm, exactly as the chain of
`tokens.next().ok_or(InvalidFormat)?` calls does. -/
def STPath.parseTokens : List String → Except ParseSTError (List PathElement)
  | [] => .ok []
  | "S" :: x_str :: y_str :: rest =>
    parseOperand x_str >>= fun x =>
    parseOperand y_str >>= fun y =>
    STPath.parseTokens rest >>= fun es =>
    .ok (PathElement.StartAt ⟨⟨x, y⟩⟩ :: es)
  | "M" :: x_str :: y_str :: rest =>
    parseOperand x_str >>= fun x =>
    parseOperand y_str >>= fun y =>
    STPath.parseTokens rest >>= fun es =>
    .ok (PathElement.MoveTo ⟨⟨x, y⟩⟩ :: es)
  | "L" :: x_str :: y_str :: rest =>
    parseOperand x_str >>= fun x =>
    parseOperand y_str >>= fun y =>
    STPath.parseTokens rest >>= fun es =>
    .ok (PathElement.LineTo ⟨⟨x, y⟩⟩ :: es)
  | "Q" :: x1_str :: y1_str :: x2_str :: y2_str :: rest =>
    parseOperand x1_str >>= fun x1 =>
    parseOperand y1_str >>= fun y1 =>
    parseOperand x2_str >>= fun x2 =>
    parseOperand y2_str >>= fun y2 =>
    STPath.parseTokens rest >>= fun es =>
    .ok (PathElement.QuadraticBezierCurve ⟨⟨x1, y1⟩, ⟨x2, y2⟩⟩ :: es)
  | "B" :: x1_str :: y1_str :: x2_str :: y2_str :: x3_str :: y3_str :: rest =>
    parseOperand x1_str >>= fun x1 =>
    parseOperand y1_str >>= fun y1 =>
    parseOperand x2_str >>= fun x2 =>
    parseOperand y2_str >>= fun y2 =>
    parseOperand x3_str >>= fun x3 =>
    parseOperand y3_str >>= fun y3 =>
    STPath.parseTokens rest >>= fun es =>
    .ok (PathElement.CubicBezierCurve ⟨⟨x1, y1⟩, ⟨x2, y2⟩, ⟨x3, y3⟩⟩ :: es)
  | "A" :: rx_str :: ry_str :: angle_str :: large_str :: sweep_str :: x_str :: y_str :: rest =>
    parseOperand rx_str >>= fun rx =>
    parseOperand ry_str >>= fun ry =>
    parseOperand angle_str >>= fun angle =>
    parseOperand large_str >>= fun large =>
    parseOperand sweep_str >>= fun sweep =>
    parseOperand x_str >>= fun x =>
    parseOperand y_str >>= fun y =>
    STPath.parseTokens rest >>= fun es =>
    .ok (PathElement.EllipseArc ⟨rx, ry, angle, large, sweep, ⟨x, y⟩⟩ :: es)
  | "C" :: rest =>
    STPath.parseTokens rest >>= fun es =>
    .ok (PathElement.ClosePath ⟨⟩ :: es)
  | _ => .error .InvalidFormat

/-- Embedding of `<STPath as FromStr>::from_str`: tokenize on whitespace,
then run the opcode loop. -/
def STPath.from_str (s : String) : Except ParseSTError STPath :=
  match STPath.parseTokens (Rust.splitWhitespace s) with
  | .error e => .error e
  | .ok elements => .ok ⟨elements⟩

/-- Embedding of `STDeltas` (`src/st_types.rs`). -/
structure STDeltas where
  deltas : List ℚ
deriving DecidableEq, Repr

/-- The token-consuming loop of `<STDeltas as FromStr>::from_str`: on token
`g`, pull and parse a count, then pull and parse a delta, and append
`count as i32` copies of the delta (none when the truncated count is zero
or negative); any other token is parsed as one delta. -/
def STDeltas.parseTokens : List String → Except ParseSTError (List ℚ)
  | [] => .ok []
  | item :: tokens =>
    if item = "g" then
      match tokens with
      | count_str :: tokens2 =>
        match parseOperand count_str with
        | .error e => .error e
        | .ok count =>
          match tokens2 with
          | delta_str :: rest =>
            match parseOperand delta_str with
            | .error e => .error e
            | .ok delta =>
              match STDeltas.parseTokens rest with
              | .error e => .error e
              | .ok ds => .ok (List.replicate (Rust.asI32 count).toNat delta ++ ds)
          | [] => .error .InvalidFormat
      | [] => .error .InvalidFormat
    else
      match parseOperand item with
      | .error e => .error e
      | .ok delta =>
        match STDeltas.parseTokens tokens with
        | .error e => .error e
        | .ok ds => .ok (delta :: ds)

/-- Embedding of `<STDeltas as FromStr>::from_str`: tokenize on whitespace,
then run the token loop. -/
def STDeltas.from_str (s : String) : Except ParseSTError STDeltas :=
  match STDeltas.parseTokens (Rust.splitWhitespace s) with
  | .error e => .error e
  | .ok deltas => .ok ⟨deltas⟩

/-- The fixed operand count of each path opcode (`S`, `M`, `L` take 2,
`Q` 4, `B` 6, `A` 7, `C` 0); `none` for an unknown opcode.  This is the
operand table implicit in the `match` arms of `STPath::from_str`. -/
def opArity (op : String) : Option Nat :=
  if op = "S" then some 2
  else if op = "M" then some 2
  else if op = "L" then some 2
  else if op = "Q" then some 4
  else if op = "B" then some 6
  else if op = "A" then some 7
  else if op = "C" then some 0
  else none

/-- Model of `std::collections::HashMap<String, String>`: an association
list; `insert` replaces any existing binding for the key.  Iteration order
of a `HashMap` is unspecified, so only `get?` / `keys` (as a set) are
meaningful to the claims. -/
abbrev HashMapS := List (String × String)

/-- `HashMap::insert` (also the per-element step of `collect`): bind `k` to
`v`, dropping any previous binding of `k`. -/
def hmInsert (m : HashMapS) (k v : String) : HashMapS :=
  (k, v) :: m.filter (fun p => p.1 != k)

/-- `HashMap::get`: the value bound to `k`, if any. -/
def hmGet (m : HashMapS) (k : String) : Option String :=
  (m.find? (fun p => p.1 == k)).map Prod.snd

/-- The keys of the map model, in representation order (the key set is what
matters; a `HashMap` has no meaningful order). -/
def hmKeys (m : HashMapS) : List String :=
  m.map Prod.fst

/-- Embedding of the `Keyword` struct (`src/ofd.rs`): text content of one
`Keyword` element. -/
structure Keyword where
  value : String
deriving DecidableEq, Repr

/-- Embedding of the `KeywordList` struct (`src/ofd.rs`). -/
structure KeywordList where
  keyword : List Keyword
deriving DecidableEq, Repr

/-- Embedding of `KeywordList::to_list`: the keyword texts, in order. -/
def KeywordList.to_list (self : KeywordList) : List String :=
  self.keyword.map (fun k => k.value)

/-- Embedding of the `CustomData` struct (`src/ofd.rs`): optional `Name`
attribute plus mandatory text content. -/
structure CustomData where
  name : Option String
  value : String
deriving DecidableEq, Repr

/-- Embedding of the `CustomDataList` struct (`src/ofd.rs`). -/
structure CustomDataList where
  custom_data : List CustomData
deriving DecidableEq, Repr

/-- Embedding of `CustomDataList::to_map`: keep the named entries as
`(name, value)` pairs, reverse the sequence, and collect into a map whose
`insert` lets later insertions overwrite earlier ones. -/
def CustomDataList.to_map (self : CustomDataList) : HashMapS :=
  ((self.custom_data.filterMap
      (fun data => data.name.map (fun n => (n, data.value)))).reverse).foldl
    (fun m p => hmInsert m p.1 p.2) []

/-- Embedding of the `DocInfo` struct (`src/ofd.rs`).  The scalar fields
are plain `String`s (serde's `#[serde(default)]` turns an absent XML field
into the empty string); `keywords` and `custom_datas` are `Option`s. -/
structure DocInfo where
  doc_id : String
  title : String
  author : String
  subject : String
  abstract_text : String
  creation_date : String
  mod_date : String
  doc_usage : String
  cover : String
  keywords : Option KeywordList
  creator : String
  creator_version : String
  custom_datas : Option CustomDataList
deriving DecidableEq, Repr

/-- Embedding of `DocInfo::attributes`: insert all eleven scalar fields
unconditionally under their fixed public names, then insert `Keywords` as
the comma-joined keyword list (empty string when the `keywords` field is
absent). -/
def DocInfo.attributes (self : DocInfo) : HashMapS :=
  let map : HashMapS := []
  let map := hmInsert map "DocId" self.doc_id
  let map := hmInsert map "Title" self.title
  let map := hmInsert map "Author" self.author
  let map := hmInsert map "Subject" self.subject
  let map := hmInsert map "Abstract" self.abstract_text
  let map := hmInsert map "CreationDate" self.creation_date
  let map := hmInsert map "ModDate" self.mod_date
  let map := hmInsert map "DocUsage" self.doc_usage
  let map := hmInsert map "Cover" self.cover
  let map := hmInsert map "Creator" self.creator
  let map := hmInsert map "CreatorVersion" self.creator_version
  let map := hmInsert map "Keywords"
    ((self.keywords.map (fun k => String.intercalate "," k.to_list)).getD "")
  map

/-- Embedding of `DocInfo::custom_datas` (the method): the flattened
custom-data map, empty when the field is absent. -/
def DocInfo.customDatasMap (self : DocInfo) : HashMapS :=
  (self.custom_datas.map CustomDataList.to_map).getD []

/-- Embedding of the `DocBody` struct (`src/ofd.rs`). -/
structure DocBody where
  doc_info : DocInfo
  doc_root : String
deriving DecidableEq, Repr

/-- Embedding of the `OfdNode` struct (`src/ofd.rs`): the decoded `OFD.xml`
manifest. -/
structure OfdNode where
  doc_body : DocBody
deriving DecidableEq, Repr

/-- Embedding of the `PageRef` struct (`src/document.rs`). -/
structure PageRef where
  id : String
  base_loc : String
deriving DecidableEq, Repr

/-- Embedding of the `PageRefs` struct (`src/document.rs`). -/
structure PageRefs where
  page : List PageRef
deriving DecidableEq, Repr

/-- Embedding of the `CommonData` struct (`src/document.rs`). -/
structure CommonData where
  max_unit_id : ℤ
  public_res : String
  template_page : PageRef
  document_res : String
deriving DecidableEq, Repr

/-- Embedding of the `Document` struct (`src/document.rs`): the decoded
document-root entry. -/
structure Document where
  common_data : CommonData
  custom_tags : String
  annotations : String
  pages : PageRefs
deriving DecidableEq, Repr

/-- Model of `serde_xml_rs::Error` (opaque to this core). -/
structure XmlError where
  msg : String
deriving DecidableEq, Repr

/-- Model of `zip::result::ZipError` restricted to what the model can
produce: `ZipArchive::by_name` fails with `FileNotFound` when no entry has
the requested name. -/
inductive ZipError where
  | FileNotFound
deriving DecidableEq, Repr

/-- Embedding of the `OfdError` enum (`src/ofd.rs`).  The spec's
`ContainerError` (missing named entry / archive failure) is the `ZipError`
variant.  `IoError` is never produced by the model: entries are held as
text, so reading them cannot fail. -/
inductive OfdError where
  | ZipError (e : ZipError)
  | IoError
  | SerdeXmlError (e : XmlError)
deriving DecidableEq, Repr

/-- Model of an already-opened `ZipArchive`: its entries as (name, text)
pairs.  Opening the file and the archive header are I/O steps outside the
model; every claim starts from an opened archive. -/
structure Archive where
  entries : List (String × String)
deriving DecidableEq, Repr

/-- Model of `ZipArchive::by_name`: the text of the entry with the given
name, or `FileNotFound`. -/
def Archive.by_name (z : Archive) (name : String) : Except ZipError String :=
  match z.entries.find? (fun p => p.1 == name) with
  | some p => .ok p.2
  | none => .error .FileNotFound

/-- Embedding of the `OfdDoc` struct (`src/ofd.rs`). -/
structure OfdDoc where
  node : OfdNode
  zip_archive : Archive
  document : Document
  attributes : HashMapS
  custom_datas : HashMapS
deriving DecidableEq, Repr

/-- Embedding of `OfdDoc::open`, instrumented with the list of archive
entries read (in order).  The two XML decoders (`OfdNode::from_xml` and
`Document::from_xml`, both thin wrappers over `serde_xml_rs::from_str`)
are external collaborators and are passed as parameters.  The steps mirror
the source: read `OFD.xml`; decode the manifest; read the entry named by
`doc_body.doc_root`; decode the document root; flatten the metadata.  Every
failure aborts the whole chain with the corresponding `OfdError`. -/
def OfdDoc.openTraced (decodeOfd : String → Except XmlError OfdNode)
    (decodeDoc : String → Except XmlError Document) (zip : Archive) :
    Except OfdError OfdDoc × List String :=
  match zip.by_name "OFD.xml" with
  | .error e => (.error (.ZipError e), [])
  | .ok content =>
    match decodeOfd content with
    | .error e => (.error (.SerdeXmlError e), ["OFD.xml"])
    | .ok ofd_node =>
      match zip.by_name ofd_node.doc_body.doc_root with
      | .error e => (.error (.ZipError e), ["OFD.xml"])
      | .ok content2 =>
        match decodeDoc content2 with
        | .error e =>
          (.error (.SerdeXmlError e), ["OFD.xml", ofd_node.doc_body.doc_root])
        | .ok document =>
          (.ok { node := ofd_node
                 zip_archive := zip
                 document := document
                 attributes := ofd_node.doc_body.doc_info.attributes
                 custom_datas := ofd_node.doc_body.doc_info.customDatasMap },
           ["OFD.xml", ofd_node.doc_body.doc_root])

/-- `OfdDoc::open` proper: the result of the instrumented run. -/
def OfdDoc.open (decodeOfd : String → Except XmlError OfdNode)
    (decodeDoc : String → Except XmlError Document) (zip : Archive) :
    Except OfdError OfdDoc :=
  (OfdDoc.openTraced decodeOfd decodeDoc zip).1

/-- Lookup after `hmInsert`: the inserted key yields the new value, any
other key falls through to the previous map. -/
theorem hmGet_insert (m : HashMapS) (k v k' : String) :
    hmGet (hmInsert m k v) k' = if k = k' then some v else hmGet m k' := by
  by_cases hkk : k = k'
  · subst hkk
    simp [hmGet, hmInsert]
  · rw [if_neg hkk]
    unfold hmGet hmInsert
    rw [List.find?_cons_of_neg _ (by simpa using hkk), List.find?_filter]
    have hp : (fun p : String × String => decide ((p.1 != k) = true ∧ (p.1 == k') = true)) =
        (fun p : String × String => p.1 == k') := by
      funext p
      by_cases hpk : p.1 = k'
      · simp [hpk, Ne.symm hkk]
      · simp [hpk]
    rw [hp]

/-- Folding `hmInsert` over a pair list: the last binding of a key in the
list wins; keys not bound in the list fall through to the start map. -/
theorem hmGet_foldl_insert (ps : List (String × String)) (m : HashMapS) (k : String) :
    hmGet (ps.foldl (fun m p => hmInsert m p.1 p.2) m) k =
      match ps.reverse.find? (fun p => p.1 == k) with
      | some p => some p.2
      | none => hmGet m k := by
  induction ps generalizing m with
  | nil => simp
  | cons p ps ih =>
    rw [List.foldl_cons, ih, List.reverse_cons, List.find?_append]
    cases hf : ps.reverse.find? (fun q => q.1 == k) with
    | some q => simp [Option.or]
    | none =>
      rw [hmGet_insert]
      by_cases hpk : p.1 = k
      · have hb : (p.1 == k) = true := by simp [hpk]
        rw [if_pos hpk]
        simp [Option.or, List.find?, hb]
      · have hb : (p.1 == k) = false := by simp [hpk]
        rw [if_neg hpk]
        simp [Option.or, List.find?, hb]

/-- `CustomDataList::to_map` resolves a key to the value of the
earliest-declared entry bearing that name: reversing before a last-wins
collect makes the first occurrence the effective winner. -/
theorem to_map_get (l : CustomDataList) (k : String) :
    hmGet l.to_map k =
      ((l.custom_data.filterMap
          (fun d => d.name.map (fun n => (n, d.value)))).find?
        (fun p => p.1 == k)).map Prod.snd := by
  unfold CustomDataList.to_map
  rw [hmGet_foldl_insert, List.reverse_reverse]
  cases hf : (l.custom_data.filterMap
      (fun d => d.name.map (fun n => (n, d.value)))).find? (fun p => p.1 == k) <;>
    simp [hmGet, hf]

/-- C2: `CustomDataList::to_map` resolves every name to the value of the
earliest-declared entry bearing it (the general equation says the lookup
equals the FIRST matching pair of the declared sequence), and in particular
the declared order `[("k","first"),("k","second")]` resolves `"k"` to
`"first"`. -/
theorem C2_first_declared_name_wins :
    (∀ (l : CustomDataList) (k : String),
      hmGet l.to_map k =
        ((l.custom_data.filterMap
            (fun d => d.name.map (fun n => (n, d.value)))).find?
          (fun p => p.1 == k)).map Prod.snd) ∧
    hmGet (CustomDataList.to_map
      ⟨[⟨some "k", "first"⟩, ⟨some "k", "second"⟩]⟩) "k" = some "first" :=
  ⟨to_map_get, by decide⟩

/-- C9: an entry whose `Name` attribute is absent contributes nothing to
`CustomDataList::to_map`: deleting it from anywhere in the declared
sequence leaves the resulting map unchanged (and flattening never fails —
`to_map` is total). -/
theorem C9_unnamed_entries_dropped (l1 l2 : List CustomData) (v : String) :
    CustomDataList.to_map ⟨l1 ++ ⟨none, v⟩ :: l2⟩ = CustomDataList.to_map ⟨l1 ++ l2⟩ := by
  unfold CustomDataList.to_map
  simp [List.filterMap_append, List.filterMap_cons]

/-- C1 counterexample: the claim says a plain scalar field whose source
value is empty is entirely omitted from the key set of
`DocInfo::attributes`.  On the document-info value with every field empty,
the code still inserts `Title` (bound to the empty string), so the key is
present, not omitted. -/
theorem C1_counterexample :
    hmGet (DocInfo.attributes
      ⟨"", "", "", "", "", "", "", "", "", none, "", "", none⟩) "Title" = some "" := by
  decide

/-- C1 amended: `DocInfo::attributes` inserts each of the eleven plain
scalar fields unconditionally under its fixed public name, with the source
value verbatim — an empty or absent source field is inserted as the empty
string, not omitted. -/
theorem C1_amended_scalars_inserted_unconditionally (info : DocInfo) :
    hmGet info.attributes "DocId" = some info.doc_id ∧
    hmGet info.attributes "Title" = some info.title ∧
    hmGet info.attributes "Author" = some info.author ∧
    hmGet info.attributes "Subject" = some info.subject ∧
    hmGet info.attributes "Abstract" = some info.abstract_text ∧
    hmGet info.attributes "CreationDate" = some info.creation_date ∧
    hmGet info.attributes "ModDate" = some info.mod_date ∧
    hmGet info.attributes "DocUsage" = some info.doc_usage ∧
    hmGet info.attributes "Cover" = some info.cover ∧
    hmGet info.attributes "Creator" = some info.creator ∧
    hmGet info.attributes "CreatorVersion" = some info.creator_version :=
  ⟨rfl, rfl, rfl, rfl, rfl, rfl, rfl, rfl, rfl, rfl, rfl⟩

/-- C10: the key set of `DocInfo::attributes` is exactly the twelve fixed
names, for every document-info value: the keys (in the representation
order of the map model, which is immaterial) are always the same list, and
every key is bound — the scalar fields verbatim (empty string when the
source field is empty/absent) and `Keywords` as the comma-joined list,
defaulting to the empty string when the `keywords` field is absent. -/
theorem C10_attributes_key_set (info : DocInfo) :
    hmKeys info.attributes =
      ["Keywords", "CreatorVersion", "Creator", "Cover", "DocUsage", "ModDate",
       "CreationDate", "Abstract", "Subject", "Author", "Title", "DocId"] ∧
    hmGet info.attributes "Keywords" =
      some ((info.keywords.map (fun k => String.intercalate "," k.to_list)).getD "") ∧
    hmGet info.attributes "DocId" = some info.doc_id ∧
    hmGet info.attributes "Title" = some info.title ∧
    hmGet info.attributes "Author" = some info.author ∧
    hmGet info.attributes "Subject" = some info.subject ∧
    hmGet info.attributes "Abstract" = some info.abstract_text ∧
    hmGet info.attributes "CreationDate" = some info.creation_date ∧
    hmGet info.attributes "ModDate" = some info.mod_date ∧
    hmGet info.attributes "DocUsage" = some info.doc_usage ∧
    hmGet info.attributes "Cover" = some info.cover ∧
    hmGet info.attributes "Creator" = some info.creator ∧
    hmGet info.attributes "CreatorVersion" = some info.creator_version :=
  ⟨rfl, rfl, rfl, rfl, rfl, rfl, rfl, rfl, rfl, rfl, rfl, rfl, rfl⟩

/-- C8: whenever the `keywords` field is structurally present,
`DocInfo::attributes` binds `Keywords` to the comma-joined keyword texts;
an empty keyword list yields the empty string, still inserted. -/
theorem C8_keywords_flattening (info : DocInfo) (kl : KeywordList)
    (h : info.keywords = some kl) :
    hmGet info.attributes "Keywords" = some (String.intercalate "," kl.to_list) ∧
    (kl.keyword = [] → hmGet info.attributes "Keywords" = some "") := by
  have base : hmGet info.attributes "Keywords" =
      some ((info.keywords.map (fun k => String.intercalate "," k.to_list)).getD "") := rfl
  rw [base, h]
  refine ⟨rfl, ?_⟩
  intro hk
  simp only [Option.map_some', Option.getD_some, KeywordList.to_list, hk, List.map_nil]
  rfl

/-- Witness for C8: a present keyword list `["a", "b"]` is flattened to
the single string `"a,b"` under the key `Keywords`. -/
theorem C8_keywords_flattening_witness :
    hmGet (DocInfo.attributes
      ⟨"", "", "", "", "", "", "", "", "", some ⟨[⟨"a"⟩, ⟨"b"⟩]⟩, "", "", none⟩)
      "Keywords" = some "a,b" := by
  have h := (C8_keywords_flattening
    ⟨"", "", "", "", "", "", "", "", "", some ⟨[⟨"a"⟩, ⟨"b"⟩]⟩, "", "", none⟩
    ⟨[⟨"a"⟩, ⟨"b"⟩]⟩ rfl).1
  simpa using h

/-- C3: `OfdDoc::open` is all-or-nothing and short-circuits in its fixed
sequence.  (1) If the archive has no entry named exactly `OFD.xml`, it
fails with the spec's `ContainerError` (the code's `OfdError::ZipError`)
and reads no entry at all — in particular no document-root read.  (2) If
the manifest decodes but its `doc_root` names a nonexistent entry, it
fails with the same error kind after the manifest step, having read only
`OFD.xml`.  (3) If the document-root entry is corrupt (its decode fails),
the whole open is an error — no partial result survives the successfully
decoded manifest.  The XML decoders are external collaborators, so the
statement quantifies over them. -/
theorem C3_open_short_circuits :
    (∀ (dOfd : String → Except XmlError OfdNode)
       (dDoc : String → Except XmlError Document) (z : Archive) (e : ZipError),
       z.by_name "OFD.xml" = .error e →
       OfdDoc.openTraced dOfd dDoc z = (.error (.ZipError e), [])) ∧
    (∀ (dOfd : String → Except XmlError OfdNode)
       (dDoc : String → Except XmlError Document) (z : Archive)
       (c : String) (node : OfdNode) (e : ZipError),
       z.by_name "OFD.xml" = .ok c → dOfd c = .ok node →
       z.by_name node.doc_body.doc_root = .error e →
       OfdDoc.openTraced dOfd dDoc z = (.error (.ZipError e), ["OFD.xml"])) ∧
    (∀ (dOfd : String → Except XmlError OfdNode)
       (dDoc : String → Except XmlError Document) (z : Archive)
       (c c2 : String) (node : OfdNode) (e : XmlError),
       z.by_name "OFD.xml" = .ok c → dOfd c = .ok node →
       z.by_name node.doc_body.doc_root = .ok c2 → dDoc c2 = .error e →
       OfdDoc.openTraced dOfd dDoc z =
         (.error (.SerdeXmlError e), ["OFD.xml", node.doc_body.doc_root])) := by
  refine ⟨?_, ?_, ?_⟩
  · intro dOfd dDoc z e h
    unfold OfdDoc.openTraced
    rw [h]
  · intro dOfd dDoc z c node e h1 h2 h3
    unfold OfdDoc.openTraced
    simp only [h1, h2, h3]
  · intro dOfd dDoc z c c2 node e h1 h2 h3 h4
    unfold OfdDoc.openTraced
    simp only [h1, h2, h3, h4]

/-- Witness for C3: on the empty archive, open fails with the
missing-entry error and performs no read; on an archive holding a manifest
and a document root whose decode fails, the whole open is an error even
though the manifest decoded. -/
theorem C3_open_short_circuits_witness :
    OfdDoc.openTraced (fun _ => .error ⟨"x"⟩) (fun _ => .error ⟨"x"⟩) ⟨[]⟩ =
      (.error (.ZipError .FileNotFound), []) ∧
    OfdDoc.openTraced
      (fun _ => .ok ⟨⟨⟨"", "", "", "", "", "", "", "", "", none, "", "", none⟩,
        "Doc_0/Document.xml"⟩⟩)
      (fun _ => .error ⟨"bad"⟩)
      ⟨[("OFD.xml", "m"), ("Doc_0/Document.xml", "d")]⟩ =
      (.error (.SerdeXmlError ⟨"bad"⟩), ["OFD.xml", "Doc_0/Document.xml"]) := by
  constructor
  · exact C3_open_short_circuits.1 _ _ ⟨[]⟩ .FileNotFound (by decide)
  · exact C3_open_short_circuits.2.2 _ _ ⟨[("OFD.xml", "m"), ("Doc_0/Document.xml", "d")]⟩
      "m" "d"
      ⟨⟨⟨"", "", "", "", "", "", "", "", "", none, "", "", none⟩, "Doc_0/Document.xml"⟩⟩
      ⟨"bad"⟩ (by decide) rfl (by decide) rfl

/-- C6 counterexample: the claim says the float-parse failure "carries the
offending token".  The code wraps `std::num::ParseFloatError`, which holds
only a failure kind: the inputs `"a 1"` and `"b 1"` have different
offending tokens yet produce identical error values, so the error cannot
carry the token. -/
theorem C6_counterexample :
    STPos.from_str "a 1" = STPos.from_str "b 1" ∧
    STPos.from_str "a 1" =
      .error (.ParseFloatError ⟨.invalid⟩) := by
  constructor <;> decide

/-- C6 amended: `STPos::from_str` succeeds exactly when the input splits
into exactly 2 whitespace tokens that both parse as floats, and
`STBox::from_str` behaves identically with exactly 4 tokens in the order
x, y, w, h; a wrong token count yields `InvalidFormat`, and a token that
is not a valid numeral yields the float-parse error wrapped as
`ParseFloatError` — which records only the standard library's failure
kind, not the offending token. -/
theorem C6_amended_pos_box_token_discipline :
    (∀ s : String, (Rust.splitWhitespace s).length ≠ 2 →
       STPos.from_str s = .error .InvalidFormat) ∧
    (∀ (s : String) (xs ys : String), Rust.splitWhitespace s = [xs, ys] →
       STPos.from_str s =
         match Rust.parseF64 xs with
         | .error e => .error (.ParseFloatError e)
         | .ok x =>
           match Rust.parseF64 ys with
           | .error e => .error (.ParseFloatError e)
           | .ok y => .ok ⟨x, y⟩) ∧
    (∀ s : String, (Rust.splitWhitespace s).length ≠ 4 →
       STBox.from_str s = .error .InvalidFormat) ∧
    (∀ (s : String) (xs ys ws hs : String),
       Rust.splitWhitespace s = [xs, ys, ws, hs] →
       STBox.from_str s =
         match Rust.parseF64 xs with
         | .error e => .error (.ParseFloatError e)
         | .ok x =>
           match Rust.parseF64 ys with
           | .error e => .error (.ParseFloatError e)
           | .ok y =>
             match Rust.parseF64 ws with
             | .error e => .error (.ParseFloatError e)
             | .ok w =>
               match Rust.parseF64 hs with
               | .error e => .error (.ParseFloatError e)
               | .ok h => .ok ⟨x, y, w, h⟩) := by
  refine ⟨?_, ?_, ?_, ?_⟩
  · intro s h
    unfold STPos.from_str
    rcases hs : Rust.splitWhitespace s with _ | ⟨a, _ | ⟨b, _ | ⟨c, rest⟩⟩⟩
    · rfl
    · rfl
    · exact absurd (by rw [hs]; rfl) h
    · rfl
  · intro s xs ys h
    unfold STPos.from_str parseOperand
    rw [h]
    cases hx : Rust.parseF64 xs <;> cases hy : Rust.parseF64 ys <;> simp [hx, hy]
  · intro s h
    unfold STBox.from_str
    rcases hs : Rust.splitWhitespace s with _ | ⟨a, _ | ⟨b, _ | ⟨c, _ | ⟨d, _ | ⟨e, rest⟩⟩⟩⟩⟩
    · rfl
    · rfl
    · rfl
    · rfl
    · exact absurd (by rw [hs]; rfl) h
    · rfl
  · intro s xs ys ws hs h
    unfold STBox.from_str parseOperand
    rw [h]
    cases hx : Rust.parseF64 xs <;> cases hy : Rust.parseF64 ys <;>
      cases hw : Rust.parseF64 ws <;> cases hh : Rust.parseF64 hs <;>
      simp [hx, hy, hw, hh]

/-- Witness for C6 amended: `"1 2 3"` has three tokens, so `STPos` rejects
it with `InvalidFormat`; `"1 x"` splits into `["1", "x"]` and the bad
numeral `"x"` surfaces as a `ParseFloatError`. -/
theorem C6_amended_pos_box_token_discipline_witness :
    STPos.from_str "1 2 3" = .error .InvalidFormat ∧
    STPos.from_str "1 x" = .error (.ParseFloatError ⟨.invalid⟩) := by
  constructor
  · exact C6_amended_pos_box_token_discipline.1 "1 2 3" (by decide)
  · have h := C6_amended_pos_box_token_discipline.2.1 "1 x" "1" "x" (by decide)
    rw [h]
    decide

/-- C7: on input tokenizing to zero whitespace-separated tokens, the Pos
and Box parsers fail with `InvalidFormat` (a token-count mismatch), while
the Path and Deltas parsers succeed with an empty result. -/
theorem C7_empty_input_behavior (s : String) (h : Rust.splitWhitespace s = []) :
    STPos.from_str s = .error .InvalidFormat ∧
    STBox.from_str s = .error .InvalidFormat ∧
    STPath.from_str s = .ok ⟨[]⟩ ∧
    STDeltas.from_str s = .ok ⟨[]⟩ := by
  unfold STPos.from_str STBox.from_str STPath.from_str STDeltas.from_str
  rw [h]
  exact ⟨rfl, rfl, rfl, rfl⟩

/-- Witness for C7: the empty string tokenizes to no tokens and shows all
four behaviours. -/
theorem C7_empty_input_behavior_witness :
    STPos.from_str "" = .error .InvalidFormat ∧
    STBox.from_str "" = .error .InvalidFormat ∧
    STPath.from_str "" = .ok ⟨[]⟩ ∧
    STDeltas.from_str "" = .ok ⟨[]⟩ :=
  C7_empty_input_behavior "" rfl

/-- C5: the delta grammar.  `from_str` tokenizes on whitespace and runs the
token loop; a `g` with two parseable operands expands to (count truncated
toward zero) repetitions of the delta — none when the truncated count is
zero or negative; any other parseable token contributes one delta; a `g`
with a missing count or delta token is `InvalidFormat`; a non-numeric
token (as count, delta, or literal) propagates the float-parse error,
which is always of the `ParseFloatError` shape; and
`parseDeltas("g 3 5 2")` yields `[5,5,5,2]`. -/
theorem C5_deltas_grammar :
    (∀ s : String, STDeltas.from_str s =
       Except.map STDeltas.mk (STDeltas.parseTokens (Rust.splitWhitespace s))) ∧
    (∀ (c d : String) (rest : List String) (cv dv : ℚ),
       parseOperand c = .ok cv → parseOperand d = .ok dv →
       STDeltas.parseTokens ("g" :: c :: d :: rest) =
         Except.map (fun ds => List.replicate (Rust.asI32 cv).toNat dv ++ ds)
           (STDeltas.parseTokens rest)) ∧
    (∀ (c d : String) (rest : List String) (cv dv : ℚ),
       parseOperand c = .ok cv → parseOperand d = .ok dv → Rust.asI32 cv ≤ 0 →
       STDeltas.parseTokens ("g" :: c :: d :: rest) = STDeltas.parseTokens rest) ∧
    (∀ (t : String) (rest : List String) (dv : ℚ),
       t ≠ "g" → parseOperand t = .ok dv →
       STDeltas.parseTokens (t :: rest) =
         Except.map (fun ds => dv :: ds) (STDeltas.parseTokens rest)) ∧
    STDeltas.parseTokens ["g"] = .error .InvalidFormat ∧
    (∀ (c : String) (cv : ℚ), parseOperand c = .ok cv →
       STDeltas.parseTokens ["g", c] = .error .InvalidFormat) ∧
    (∀ (c : String) (rest : List String) (e : ParseSTError),
       parseOperand c = .error e →
       STDeltas.parseTokens ("g" :: c :: rest) = .error e) ∧
    (∀ (c d : String) (rest : List String) (cv : ℚ) (e : ParseSTError),
       parseOperand c = .ok cv → parseOperand d = .error e →
       STDeltas.parseTokens ("g" :: c :: d :: rest) = .error e) ∧
    (∀ (t : String) (rest : List String) (e : ParseSTError),
       t ≠ "g" → parseOperand t = .error e →
       STDeltas.parseTokens (t :: rest) = .error e) ∧
    (∀ (t : String) (e : ParseSTError), parseOperand t = .error e →
       ∃ fe : Rust.ParseFloatError, e = .ParseFloatError fe) ∧
    STDeltas.from_str "g 3 5 2" = .ok ⟨[5, 5, 5, 2]⟩ := by
  refine ⟨?_, ?_, ?_, ?_, ?_, ?_, ?_, ?_, ?_, ?_, ?_⟩
  · intro s
    unfold STDeltas.from_str
    cases hr : STDeltas.parseTokens (Rust.splitWhitespace s) <;> simp [hr, Except.map]
  · intro c d rest cv dv hc hd
    rw [STDeltas.parseTokens]
    simp only [if_pos rfl, hc, hd]
    cases hr : STDeltas.parseTokens rest <;> simp [hr, Except.map]
  · intro c d rest cv dv hc hd hle
    rw [STDeltas.parseTokens]
    simp only [if_pos rfl, hc, hd, Int.toNat_of_nonpos hle, List.replicate_zero,
      List.nil_append]
    cases hr : STDeltas.parseTokens rest <;> simp [hr]
  · intro t rest dv ht hdv
    rw [STDeltas.parseTokens.eq_def]
    simp only [if_neg ht, hdv]
    cases hr : STDeltas.parseTokens rest <;> simp [hr, Except.map]
  · rfl
  · intro c cv hc
    rw [STDeltas.parseTokens]
    simp [hc]
  · intro c rest e hc
    rw [STDeltas.parseTokens]
    simp [hc]
  · intro c d rest cv e hc hd
    rw [STDeltas.parseTokens]
    simp [hc, hd]
  · intro t rest e ht he
    rw [STDeltas.parseTokens.eq_def]
    simp only [if_neg ht, he]
  · intro t e he
    unfold parseOperand at he
    cases hf : Rust.parseF64 t with
    | ok v => rw [hf] at he; exact absurd he (by simp)
    | error fe => rw [hf] at he; exact ⟨fe, by injection he with h; exact h.symm⟩
  · decide

/-- Witness for C5: the `g`-expansion equation instantiated at
`["g", "3", "5", "2"]`, with both operand parses discharged concretely. -/
theorem C5_deltas_grammar_witness :
    STDeltas.parseTokens ["g", "3", "5", "2"] =
      Except.map (fun ds => List.replicate (Rust.asI32 3).toNat 5 ++ ds)
        (STDeltas.parseTokens ["2"]) :=
  C5_deltas_grammar.2.1 "3" "5" ["2"] 3 5 (by decide) (by decide)

/-- C4: the path grammar.  `from_str` tokenizes on whitespace and consumes,
single-pass and left-to-right, one opcode token followed by exactly its
fixed operand count (2/2/2 for `S`/`M`/`L`, 4 for `Q`, 6 for `B`, 7 for
`A`, 0 for `C`).  The per-opcode equations fully characterize each step:
operands are parsed in token order, the first bad numeral propagates its
float-parse error (always of the `ParseFloatError` shape), and a
successful step conses its element onto the parse of the remaining stream
(order preserved).  Stream exhaustion mid-operand-list and an unknown
opcode yield `InvalidFormat`.  No geometric validation happens: a draw op
with no preceding start (`L 1 2`) is accepted. -/
theorem C4_path_grammar :
    (∀ s : String, STPath.from_str s =
       Except.map STPath.mk (STPath.parseTokens (Rust.splitWhitespace s))) ∧
    (∀ (x y : String) (rest : List String),
       STPath.parseTokens ("S" :: x :: y :: rest) =
         match parseOperand x with
         | .error e => .error e
         | .ok xv =>
           match parseOperand y with
           | .error e => .error e
           | .ok yv =>
             Except.map (fun es => PathElement.StartAt ⟨⟨xv, yv⟩⟩ :: es)
               (STPath.parseTokens rest)) ∧
    (∀ (x y : String) (rest : List String),
       STPath.parseTokens ("M" :: x :: y :: rest) =
         match parseOperand x with
         | .error e => .error e
         | .ok xv =>
           match parseOperand y with
           | .error e => .error e
           | .ok yv =>
             Except.map (fun es => PathElement.MoveTo ⟨⟨xv, yv⟩⟩ :: es)
               (STPath.parseTokens rest)) ∧
    (∀ (x y : String) (rest : List String),
       STPath.parseTokens ("L" :: x :: y :: rest) =
         match parseOperand x with
         | .error e => .error e
         | .ok xv =>
           match parseOperand y with
           | .error e => .error e
           | .ok yv =>
             Except.map (fun es => PathElement.LineTo ⟨⟨xv, yv⟩⟩ :: es)
               (STPath.parseTokens rest)) ∧
    (∀ (x1 y1 x2 y2 : String) (rest : List String),
       STPath.parseTokens ("Q" :: x1 :: y1 :: x2 :: y2 :: rest) =
         match parseOperand x1 with
         | .error e => .error e
         | .ok v1 =>
           match parseOperand y1 with
           | .error e => .error e
           | .ok v2 =>
             match parseOperand x2 with
             | .error e => .error e
             | .ok v3 =>
               match parseOperand y2 with
               | .error e => .error e
               | .ok v4 =>
                 Except.map
                   (fun es => PathElement.QuadraticBezierCurve ⟨⟨v1, v2⟩, ⟨v3, v4⟩⟩ :: es)
                   (STPath.parseTokens rest)) ∧
    (∀ (x1 y1 x2 y2 x3 y3 : String) (rest : List String),
       STPath.parseTokens ("B" :: x1 :: y1 :: x2 :: y2 :: x3 :: y3 :: rest) =
         match parseOperand x1 with
         | .error e => .error e
         | .ok v1 =>
           match parseOperand y1 with
           | .error e => .error e
           | .ok v2 =>
             match parseOperand x2 with
             | .error e => .error e
             | .ok v3 =>
               match parseOperand y2 with
               | .error e => .error e
               | .ok v4 =>
                 match parseOperand x3 with
                 | .error e => .error e
                 | .ok v5 =>
                   match parseOperand y3 with
                   | .error e => .error e
                   | .ok v6 =>
                     Except.map
                       (fun es => PathElement.CubicBezierCurve
                         ⟨⟨v1, v2⟩, ⟨v3, v4⟩, ⟨v5, v6⟩⟩ :: es)
                       (STPath.parseTokens rest)) ∧
    (∀ (rx ry angle large sweep x y : String) (rest : List String),
       STPath.parseTokens ("A" :: rx :: ry :: angle :: large :: sweep :: x :: y :: rest) =
         match parseOperand rx with
         | .error e => .error e
         | .ok v1 =>
           match parseOperand ry with
           | .error e => .error e
           | .ok v2 =>
             match parseOperand angle with
             | .error e => .error e
             | .ok v3 =>
               match parseOperand large with
               | .error e => .error e
               | .ok v4 =>
                 match parseOperand sweep with
                 | .error e => .error e
                 | .ok v5 =>
                   match parseOperand x with
                   | .error e => .error e
                   | .ok v6 =>
                     match parseOperand y with
                     | .error e => .error e
                     | .ok v7 =>
                       Except.map
                         (fun es => PathElement.EllipseArc
                           ⟨v1, v2, v3, v4, v5, ⟨v6, v7⟩⟩ :: es)
                         (STPath.parseTokens rest)) ∧
    (∀ rest : List String,
       STPath.parseTokens ("C" :: rest) =
         Except.map (fun es => PathElement.ClosePath ⟨⟩ :: es)
           (STPath.parseTokens rest)) ∧
    (∀ (op : String) (n : Nat) (tokens : List String),
       opArity op = some n → tokens.length < n →
       STPath.parseTokens (op :: tokens) = .error .InvalidFormat) ∧
    (∀ (op : String) (tokens : List String),
       opArity op = none →
       STPath.parseTokens (op :: tokens) = .error .InvalidFormat) ∧
    (∀ (t : String) (e : ParseSTError), parseOperand t = .error e →
       ∃ fe : Rust.ParseFloatError, e = .ParseFloatError fe) ∧
    STPath.from_str "L 1 2" = .ok ⟨[PathElement.LineTo ⟨⟨1, 2⟩⟩]⟩ := by
  refine ⟨?_, ?_, ?_, ?_, ?_, ?_, ?_, ?_, ?_, ?_, ?_, ?_⟩
  · intro s
    unfold STPath.from_str
    cases hr : STPath.parseTokens (Rust.splitWhitespace s) with
    | error e => rfl
    | ok es => rfl
  · intro x y rest
    rw [STPath.parseTokens]
    cases hx : parseOperand x <;> cases hy : parseOperand y <;>
      cases hr : STPath.parseTokens rest <;>
      simp [hx, hy, hr, Except.map, Except.bind, Bind.bind]
  · intro x y rest
    rw [STPath.parseTokens]
    cases hx : parseOperand x <;> cases hy : parseOperand y <;>
      cases hr : STPath.parseTokens rest <;>
      simp [hx, hy, hr, Except.map, Except.bind, Bind.bind]
  · intro x y rest
    rw [STPath.parseTokens]
    cases hx : parseOperand x <;> cases hy : parseOperand y <;>
      cases hr : STPath.parseTokens rest <;>
      simp [hx, hy, hr, Except.map, Except.bind, Bind.bind]
  · intro x1 y1 x2 y2 rest
    rw [STPath.parseTokens]
    cases h1 : parseOperand x1 <;> cases h2 : parseOperand y1 <;>
      cases h3 : parseOperand x2 <;> cases h4 : parseOperand y2 <;>
      cases hr : STPath.parseTokens rest <;>
      simp [h1, h2, h3, h4, hr, Except.map, Except.bind, Bind.bind]
  · intro x1 y1 x2 y2 x3 y3 rest
    rw [STPath.parseTokens]
    cases h1 : parseOperand x1 <;> cases h2 : parseOperand y1 <;>
      cases h3 : parseOperand x2 <;> cases h4 : parseOperand y2 <;>
      cases h5 : parseOperand x3 <;> cases h6 : parseOperand y3 <;>
      cases hr : STPath.parseTokens rest <;>
      simp [h1, h2, h3, h4, h5, h6, hr, Except.map, Except.bind, Bind.bind]
  · intro rx ry angle large sweep x y rest
    rw [STPath.parseTokens]
    cases h1 : parseOperand rx <;> cases h2 : parseOperand ry <;>
      cases h3 : parseOperand angle <;> cases h4 : parseOperand large <;>
      cases h5 : parseOperand sweep <;> cases h6 : parseOperand x <;>
      cases h7 : parseOperand y <;> cases hr : STPath.parseTokens rest <;>
      simp [h1, h2, h3, h4, h5, h6, h7, hr, Except.map, Except.bind, Bind.bind]
  · intro rest
    rw [STPath.parseTokens]
    cases hr : STPath.parseTokens rest <;>
      simp [hr, Except.map, Except.bind, Bind.bind]
  · intro op n tokens ha hlen
    by_cases h1 : op = "S"
    · subst h1
      have hn : n = 2 := by simp [opArity] at ha; omega
      subst hn
      rcases tokens with _ | ⟨a, _ | ⟨b, t⟩⟩
      · simp [STPath.parseTokens]
      · simp [STPath.parseTokens]
      · simp only [List.length_cons] at hlen; omega
    · by_cases h2 : op = "M"
      · subst h2
        have hn : n = 2 := by simp [opArity] at ha; omega
        subst hn
        rcases tokens with _ | ⟨a, _ | ⟨b, t⟩⟩
        · simp [STPath.parseTokens]
        · simp [STPath.parseTokens]
        · simp only [List.length_cons] at hlen; omega
      · by_cases h3 : op = "L"
        · subst h3
          have hn : n = 2 := by simp [opArity] at ha; omega
          subst hn
          rcases tokens with _ | ⟨a, _ | ⟨b, t⟩⟩
          · simp [STPath.parseTokens]
          · simp [STPath.parseTokens]
          · simp only [List.length_cons] at hlen; omega
        · by_cases h4 : op = "Q"
          · subst h4
            have hn : n = 4 := by simp [opArity] at ha; omega
            subst hn
            rcases tokens with _ | ⟨a, _ | ⟨b, _ | ⟨c, _ | ⟨d, t⟩⟩⟩⟩
            · simp [STPath.parseTokens]
            · simp [STPath.parseTokens]
            · simp [STPath.parseTokens]
            · simp [STPath.parseTokens]
            · simp only [List.length_cons] at hlen; omega
          · by_cases h5 : op = "B"
            · subst h5
              have hn : n = 6 := by simp [opArity] at ha; omega
              subst hn
              rcases tokens with _ | ⟨a, _ | ⟨b, _ | ⟨c, _ | ⟨d, _ | ⟨e, _ | ⟨f, t⟩⟩⟩⟩⟩⟩
              · simp [STPath.parseTokens]
              · simp [STPath.parseTokens]
              · simp [STPath.parseTokens]
              · simp [STPath.parseTokens]
              · simp [STPath.parseTokens]
              · simp [STPath.parseTokens]
              · simp only [List.length_cons] at hlen; omega
            · by_cases h6 : op = "A"
              · subst h6
                have hn : n = 7 := by simp [opArity] at ha; omega
                subst hn
                rcases tokens with
                  _ | ⟨a, _ | ⟨b, _ | ⟨c, _ | ⟨d, _ | ⟨e, _ | ⟨f, _ | ⟨g, t⟩⟩⟩⟩⟩⟩⟩
                · simp [STPath.parseTokens]
                · simp [STPath.parseTokens]
                · simp [STPath.parseTokens]
                · simp [STPath.parseTokens]
                · simp [STPath.parseTokens]
                · simp [STPath.parseTokens]
                · simp [STPath.parseTokens]
                · simp only [List.length_cons] at hlen; omega
              · by_cases h7 : op = "C"
                · subst h7
                  have hn : n = 0 := by simp [opArity] at ha; omega
                  subst hn
                  exact absurd hlen (by omega)
                · exfalso
                  simp [opArity, h1, h2, h3, h4, h5, h6, h7] at ha
  · intro op tokens ha
    have h1 : op ≠ "S" := by rintro rfl; simp [opArity] at ha
    have h2 : op ≠ "M" := by rintro rfl; simp [opArity] at ha
    have h3 : op ≠ "L" := by rintro rfl; simp [opArity] at ha
    have h4 : op ≠ "Q" := by rintro rfl; simp [opArity] at ha
    have h5 : op ≠ "B" := by rintro rfl; simp [opArity] at ha
    have h6 : op ≠ "A" := by rintro rfl; simp [opArity] at ha
    have h7 : op ≠ "C" := by rintro rfl; simp [opArity] at ha
    rcases tokens with _ | ⟨a, _ | ⟨b, _ | ⟨c, _ | ⟨d, _ | ⟨e, _ | ⟨f, _ | ⟨g, t⟩⟩⟩⟩⟩⟩⟩ <;>
      simp [STPath.parseTokens, h1, h2, h3, h4, h5, h6, h7]
  · intro t e he
    unfold parseOperand at he
    cases hf : Rust.parseF64 t with
    | ok v => rw [hf] at he; exact absurd he (by simp)
    | error fe => rw [hf] at he; exact ⟨fe, by injection he with h; exact h.symm⟩
  · decide

/-- Witness for C4: the exhaustion rule applied at opcode `Q` (arity 4)
with a single operand token, and concretely `Q` with three operands
failing with `InvalidFormat`. -/
theorem C4_path_grammar_witness :
    STPath.parseTokens ["Q", "1"] = .error .InvalidFormat ∧
    STPath.from_str "Q 1 2 3" = .error .InvalidFormat := by
  constructor
  · exact C4_path_grammar.2.2.2.2.2.2.2.2.1 "Q" 4 ["1"] rfl (by decide)
  · decide
